import Mathlib

/-!
Shallow embedding of the tunnel lifecycle supervisor of the SSH-Tunnel
repository (package `tunnel`, file `internal/tunnel/manager.go` as shipped in
the source tree): the `Status` enumeration, the per-tunnel record, the
registry `Manager` with `Start`/`Stop`/`Restart`/`GetStatus`/`List`/
`HealthCheck`, the launch policy `buildSSHArgs`, and the monitor task body.

Go machine state is embedded as follows: `time.Time` values become integers
(zero meaning the Go zero value "never"); the process handle
(`Process *exec.Cmd` with its inner `Process *os.Process`) becomes an
`Option Proc`; the untyped `error` results become an explicit error-kind
inductive mirroring the distinct `fmt.Errorf` sites; the cancellation
context becomes a `cancelled` flag (`t.ctx.Err() != nil`); external
collaborators (config provider, process spawning, kill signalling, the
wait result observed by the monitor goroutine) become explicit oracle
arguments, so every operation is a pure function of the registry state and
those oracles.
-/

namespace SSHTunnel

/-- `config.CloudServerConfig` (fields used by the supervisor). -/
structure CloudServerConfig where
  ip : String
  port : Int
  user : String
  homeDir : String
  deriving Repr, DecidableEq

/-- `config.LocalServerConfig` (fields used by the supervisor). -/
structure LocalServerConfig where
  user : String
  reversePort : Int
  socksPort : Int
  deriving Repr, DecidableEq

/-- `config.SSHConfig` (fields used by the supervisor). -/
structure SSHConfig where
  privateKeyPath : String
  nattedKeyPath : String
  compression : Bool
  ciphers : String
  deriving Repr, DecidableEq

/-- `config.PerformanceConfig`. -/
structure PerformanceConfig where
  keepAliveInterval : Int
  keepAliveCountMax : Int
  connectTimeout : Int
  deriving Repr, DecidableEq

/-- `config.Config` (the sections consulted by the tunnel supervisor). -/
structure Config where
  tunnelName : String
  cloudServer : CloudServerConfig
  localServer : LocalServerConfig
  ssh : SSHConfig
  performance : PerformanceConfig
  deriving Repr, DecidableEq

/-- The `Status` enumeration of package `tunnel`. -/
inductive Status where
  | stopped
  | starting
  | running
  | stopping
  | error
  deriving Repr, DecidableEq

/-- A live OS process handle: the pair `Tunnel.Process != nil` and
`Tunnel.Process.Process != nil` collapsed into one presence bit, carrying
the pid and whether `ProcessState != nil && ProcessState.Exited()`. -/
structure Proc where
  pid : Int
  exited : Bool
  deriving Repr, DecidableEq

/-- The per-tunnel mutable record `tunnel.Tunnel`.  `cancelled` embeds
`t.ctx.Err() != nil` (set exactly when `t.cancel()` has been called). -/
structure Tunnel where
  id : String
  config : Config
  process : Option Proc
  status : Status
  startTime : Int
  lastHealthCheck : Int
  lastError : Option String
  cancelled : Bool
  deriving Repr, DecidableEq

/-- Error kinds, one per distinct `fmt.Errorf` site of the supervisor. -/
inductive TunnelErr where
  /-- `tunnel '%s' is already %s` from `Manager.Start`. -/
  | alreadyActive (name : String) (st : Status)
  /-- `failed to get configuration for tunnel '%s'` from `Manager.Start`. -/
  | configNotFound (name : String)
  /-- `failed to start tunnel '%s': failed to start SSH process` wrapping a
  `cmd.Start` failure. -/
  | spawnFailure (name : String) (msg : String)
  /-- `tunnel '%s' not found` from `Manager.Stop` / `Manager.HealthCheck`. -/
  | notFound (name : String)
  /-- `tunnel '%s' is already %s` from `Manager.Stop`. -/
  | alreadyStopped (name : String) (st : Status)
  /-- `tunnel '%s' is not running` from `Manager.HealthCheck`. -/
  | notRunning (name : String)
  /-- `tunnel process not found` from `Manager.HealthCheck`. -/
  | processNotFound (name : String)
  /-- `tunnel process has exited` from `Manager.HealthCheck`. -/
  | processExited (name : String)
  deriving Repr, DecidableEq

/-- The registry map `map[string]*Tunnel`, embedded as an association list
with Go-map semantics (at most one binding per key). -/
abbrev Registry := List (String × Tunnel)

/-- Go map read `m.tunnels[name]` (with its `exists` bit as `Option`). -/
def findT : Registry → String → Option Tunnel
  | [], _ => none
  | (k, v) :: rest, n => if k = n then some v else findT rest n

/-- Go map delete `delete(m.tunnels, name)`. -/
def eraseT : Registry → String → Registry
  | [], _ => []
  | (k, v) :: rest, n => if k = n then eraseT rest n else (k, v) :: eraseT rest n

/-- Go map write `m.tunnels[name] = t` (insert or replace). -/
def insertT (r : Registry) (n : String) (t : Tunnel) : Registry :=
  (n, t) :: eraseT r n

/-- `tunnel.Manager`: the registry of active tunnels. -/
structure Manager where
  tunnels : Registry
  deriving Repr, DecidableEq

/-- `tunnel.NewManager()`. -/
def Manager.new : Manager := ⟨[]⟩

/-- The read-only projection `tunnel.TunnelStatus`. -/
structure TunnelStatus where
  name : String
  status : Status
  startTime : Int
  lastHealthCheck : Int
  uptime : Int
  pid : Int
  err : Option String
  deriving Repr, DecidableEq

/-- `Tunnel.buildSSHArgs`: the launch policy, a pure function from the
configuration snapshot to the ssh argument vector. -/
def Tunnel.buildSSHArgs (t : Tunnel) : List String :=
  let cfg := t.config
  let args := ["-N", "-T"]
  let args := args ++
    ["-o", "ServerAliveInterval=" ++ toString cfg.performance.keepAliveInterval,
     "-o", "ServerAliveCountMax=" ++ toString cfg.performance.keepAliveCountMax,
     "-o", "StrictHostKeyChecking=no",
     "-o", "UserKnownHostsFile=/dev/null",
     "-o", "ExitOnForwardFailure=yes",
     "-o", "ConnectTimeout=" ++ toString cfg.performance.connectTimeout]
  let args := if cfg.ssh.compression then args ++ ["-o", "Compression=yes"] else args
  let args := if cfg.ssh.ciphers ≠ "" then
      args ++ ["-o", "Ciphers=" ++ cfg.ssh.ciphers] else args
  let args := args ++ ["-i", cfg.ssh.privateKeyPath]
  let args := args ++ ["-p", toString cfg.cloudServer.port]
  let args := args ++ ["-R", toString cfg.localServer.reversePort ++ ":localhost:22"]
  let args := if cfg.localServer.socksPort > 0 then
      args ++ ["-D", toString cfg.localServer.socksPort] else args
  args ++ [cfg.cloudServer.user ++ "@" ++ cfg.cloudServer.ip]

/-- `Tunnel.start`: build the command for `buildSSHArgs` and run `cmd.Start()`
(oracle `spawn` is its outcome).  On failure the record moves to `Error` with
the wrapped cause and that cause is returned; on success the record gets the
process handle, status `Running`, `startTime := now`, a cleared error, and
the monitor goroutine is launched.  Returns the updated record and the Go
`error` result. -/
def Tunnel.start (t : Tunnel) (spawn : Except String Proc) (now : Int) :
    Tunnel × Option String :=
  match spawn with
  | .error msg =>
      ({t with status := .error,
               lastError := some ("failed to start SSH process: " ++ msg)},
       some ("failed to start SSH process: " ++ msg))
  | .ok p =>
      ({t with process := some p, status := .running, startTime := now,
               lastError := none}, none)

/-- `Manager.Start`: reject when an existing entry is `Running` or `Starting`;
resolve the configuration (oracle `getConfig` embeds
`config.GetManager().GetConfig`); build a fresh `Starting` record with a fresh
cancellation context; run `Tunnel.start`; on spawn failure return the error
with no registry write (the fresh record is dropped and its context
cancelled); on success store the record in the registry. -/
def Manager.start (m : Manager) (name : String)
    (getConfig : String → Option Config) (spawn : Except String Proc)
    (now : Int) : Manager × Option TunnelErr :=
  let active : Option Status :=
    match findT m.tunnels name with
    | some t =>
        if t.status = .running ∨ t.status = .starting then some t.status else none
    | none => none
  match active with
  | some st => (m, some (.alreadyActive name st))
  | none =>
    match getConfig name with
    | none => (m, some (.configNotFound name))
    | some cfg =>
      let t : Tunnel :=
        { id := name, config := cfg, process := none, status := .starting,
          startTime := 0, lastHealthCheck := 0, lastError := none,
          cancelled := false }
      match Tunnel.start t spawn now with
      | (_, some msg) => (m, some (.spawnFailure name msg))
      | (t1, none) => (⟨insertT m.tunnels name t1⟩, none)

/-- `Manager.Stop`: `NotFound` when absent; `AlreadyStopped` when the entry is
`Stopped`/`Stopping`; otherwise the entry is set `Stopping`, its context is
cancelled, the process is killed (oracle `killErr` is the `Kill` outcome,
only logged on failure), the entry is set `Stopped` and deleted from the
registry — all before the locks are released, so only the deletion is
observable in the resulting registry. -/
def Manager.stop (m : Manager) (name : String) (killErr : Option String) :
    Manager × Option TunnelErr :=
  match findT m.tunnels name with
  | none => (m, some (.notFound name))
  | some t =>
    if t.status = .stopped ∨ t.status = .stopping then
      (m, some (.alreadyStopped name t.status))
    else
      (⟨eraseT m.tunnels name⟩, none)

/-- `Manager.Restart`: `Stop` with any error logged and discarded, then
`time.Sleep(1 * time.Second)` (the passage of time is already carried by the
caller-supplied `now`), then `Start`, whose result is returned. -/
def Manager.restart (m : Manager) (name : String) (killErr : Option String)
    (getConfig : String → Option Config) (spawn : Except String Proc)
    (now : Int) : Manager × Option TunnelErr :=
  let stopped := Manager.stop m name killErr
  Manager.start stopped.1 name getConfig spawn now

/-- `Manager.GetStatus`: a synthetic `Stopped` projection for an absent name
(Go zero values elsewhere); otherwise a snapshot of the entry with
`Uptime := time.Since(StartTime)` and the pid read from the process handle
(0 when absent).  The Go `error` result is always nil and is elided. -/
def Manager.getStatus (m : Manager) (name : String) (now : Int) : TunnelStatus :=
  match findT m.tunnels name with
  | none =>
      { name := name, status := .stopped, startTime := 0, lastHealthCheck := 0,
        uptime := 0, pid := 0, err := none }
  | some t =>
      { name := name, status := t.status, startTime := t.startTime,
        lastHealthCheck := t.lastHealthCheck, err := t.lastError,
        uptime := now - t.startTime,
        pid := match t.process with | some p => p.pid | none => 0 }

/-- `Manager.List`: one `GetStatus` projection per registered name (the
`GetStatus` error branch is dead code since `GetStatus` never fails). -/
def Manager.list (m : Manager) (now : Int) : List TunnelStatus :=
  m.tunnels.map (fun p => Manager.getStatus m p.1 now)

/-- `Manager.HealthCheck`: `NotFound` when absent; `NotRunning` when the entry
is not `Running`; `Error` with cause `tunnel process not found` when the
process handle is missing; `Error` with cause `tunnel process has exited`
when the wait status shows an exit; otherwise stamp `lastHealthCheck`. -/
def Manager.healthCheck (m : Manager) (name : String) (now : Int) :
    Manager × Option TunnelErr :=
  match findT m.tunnels name with
  | none => (m, some (.notFound name))
  | some t =>
    if t.status ≠ .running then (m, some (.notRunning name))
    else
      match t.process with
      | none =>
          (⟨insertT m.tunnels name
              {t with status := .error,
                      lastError := some "tunnel process not found"}⟩,
           some (.processNotFound name))
      | some p =>
          if p.exited then
            (⟨insertT m.tunnels name
                {t with status := .error,
                        lastError := some "tunnel process has exited"}⟩,
             some (.processExited name))
          else
            (⟨insertT m.tunnels name {t with lastHealthCheck := now}⟩, none)

/-- `Tunnel.monitor`, run once `Process.Wait()` returns with result
`exitErr` (`none` embeds a nil wait error, i.e. a clean exit): if the wait
failed and the context is not cancelled, record an unexpected exit as
`Error`; otherwise if the context is cancelled, set `Stopped`; finally the
deferred block demotes a still-`Running` status to `Stopped`. -/
def Tunnel.monitorStep (t : Tunnel) (exitErr : Option String) : Tunnel :=
  let t1 :=
    match exitErr, t.cancelled with
    | some msg, false =>
        {t with status := .error,
                lastError := some ("SSH process exited unexpectedly: " ++ msg)}
    | _, true => {t with status := .stopped}
    | none, false => t
  if t1.status = .running then {t1 with status := .stopped} else t1

/-- The monitor goroutine of the record currently registered under `name`
observes its process exit.  A goroutine whose record was already deleted
from the registry writes only to that unreachable record, which no operation
can observe, so it is embedded as a no-op. -/
def Manager.monitorFire (m : Manager) (name : String) (exitErr : Option String) :
    Manager :=
  match findT m.tunnels name with
  | none => m
  | some t => ⟨insertT m.tunnels name (Tunnel.monitorStep t exitErr)⟩

/-- Registry states reachable from `NewManager()` by any interleaving of the
supervisor's operations (each with arbitrary oracle outcomes). -/
inductive Reach : Manager → Prop where
  | init : Reach Manager.new
  | start (m : Manager) (name : String) (gc : String → Option Config)
      (sp : Except String Proc) (now : Int) :
      Reach m → Reach (Manager.start m name gc sp now).1
  | stop (m : Manager) (name : String) (ke : Option String) :
      Reach m → Reach (Manager.stop m name ke).1
  | restart (m : Manager) (name : String) (ke : Option String)
      (gc : String → Option Config) (sp : Except String Proc) (now : Int) :
      Reach m → Reach (Manager.restart m name ke gc sp now).1
  | health (m : Manager) (name : String) (now : Int) :
      Reach m → Reach (Manager.healthCheck m name now).1
  | monitorFire (m : Manager) (name : String) (ee : Option String) :
      Reach m → Reach (Manager.monitorFire m name ee)

/-- The statuses a registered entry can actually carry: `Start` inserts
entries only as `Running`, and later transitions lead only to `Error` or
`Stopped`. -/
def GoodStatus (s : Status) : Prop :=
  s = .running ∨ s = .error ∨ s = .stopped

/-- Every registered entry carries a `GoodStatus`. -/
def RegistryInv (m : Manager) : Prop :=
  ∀ n t, findT m.tunnels n = some t → GoodStatus t.status

theorem findT_eraseT (r : Registry) (n n' : String) :
    findT (eraseT r n) n' = if n' = n then none else findT r n' := by
  induction r with
  | nil => simp [eraseT, findT]
  | cons p rest ih =>
    obtain ⟨k, v⟩ := p
    by_cases hk : k = n
    · subst hk
      by_cases h' : n' = k
      · subst h'; simp [eraseT, findT, ih]
      · simp [eraseT, findT, ih, h', Ne.symm h']
    · by_cases hk' : k = n'
      · subst hk'
        simp [eraseT, findT, hk, ih]
      · simp [eraseT, findT, hk, hk', ih]

theorem findT_insertT (r : Registry) (n n' : String) (t : Tunnel) :
    findT (insertT r n t) n' = if n' = n then some t else findT r n' := by
  by_cases h' : n' = n
  · subst h'; simp [insertT, findT]
  · have hnn : n ≠ n' := fun h => h' h.symm
    simp [insertT, findT, hnn, h', findT_eraseT]

theorem monitorStep_status (t : Tunnel) (ee : Option String) :
    (Tunnel.monitorStep t ee).status = .error ∨
    (Tunnel.monitorStep t ee).status = .stopped ∨
    (Tunnel.monitorStep t ee).status = t.status := by
  unfold Tunnel.monitorStep
  rcases ee with _ | msg <;> rcases hc : t.cancelled <;>
    simp [hc] <;> split <;> simp

theorem start_cases (m : Manager) (name : String)
    (gc : String → Option Config) (sp : Except String Proc) (now : Int) :
    (Manager.start m name gc sp now).1 = m ∨
    ∃ t1 : Tunnel, t1.status = .running ∧
      (Manager.start m name gc sp now).1 = ⟨insertT m.tunnels name t1⟩ := by
  rcases hf : findT m.tunnels name with _ | t
  · rcases hg : gc name with _ | cfg
    · simp [Manager.start, hf, hg]
    · rcases sp with msg | p
      · simp [Manager.start, Tunnel.start, hf, hg]
      · right
        exact ⟨{ id := name, config := cfg, process := some p,
                 status := .running, startTime := now, lastHealthCheck := 0,
                 lastError := none, cancelled := false }, rfl,
               by simp [Manager.start, Tunnel.start, hf, hg]⟩
  · by_cases ht : t.status = .running ∨ t.status = .starting
    · simp [Manager.start, hf, ht]
    · rcases hg : gc name with _ | cfg
      · simp [Manager.start, hf, ht, hg]
      · rcases sp with msg | p
        · simp [Manager.start, Tunnel.start, hf, ht, hg]
        · right
          exact ⟨{ id := name, config := cfg, process := some p,
                   status := .running, startTime := now, lastHealthCheck := 0,
                   lastError := none, cancelled := false }, rfl,
                 by simp [Manager.start, Tunnel.start, hf, ht, hg]⟩

theorem stop_cases (m : Manager) (name : String) (ke : Option String) :
    (Manager.stop m name ke).1 = m ∨
    (Manager.stop m name ke).1 = ⟨eraseT m.tunnels name⟩ := by
  rcases hf : findT m.tunnels name with _ | t
  · simp [Manager.stop, hf]
  · by_cases ht : t.status = .stopped ∨ t.status = .stopping <;>
      simp [Manager.stop, hf, ht]

theorem healthCheck_cases (m : Manager) (name : String) (now : Int) :
    (Manager.healthCheck m name now).1 = m ∨
    ∃ t t1 : Tunnel, findT m.tunnels name = some t ∧
      (t1.status = .error ∨ t1.status = t.status) ∧
      (Manager.healthCheck m name now).1 = ⟨insertT m.tunnels name t1⟩ := by
  rcases hf : findT m.tunnels name with _ | t
  · simp [Manager.healthCheck, hf]
  · by_cases ht : t.status = .running
    · rcases hp : t.process with _ | p
      · refine Or.inr ⟨t, ({t with status := .error, lastError := some "tunnel process not found"} : Tunnel), rfl, Or.inl rfl, ?_⟩
        simp [Manager.healthCheck, hf, ht, hp]
      · by_cases hex : p.exited = true
        · refine Or.inr ⟨t, ({t with status := .error, lastError := some "tunnel process has exited"} : Tunnel), rfl, Or.inl rfl, ?_⟩
          simp [Manager.healthCheck, hf, ht, hp, hex]
        · refine Or.inr ⟨t, ({t with lastHealthCheck := now} : Tunnel),
            rfl, Or.inr rfl, ?_⟩
          simp [Manager.healthCheck, hf, ht, hp, hex]
    · simp [Manager.healthCheck, hf, ht]

theorem monitorFire_cases (m : Manager) (name : String) (ee : Option String) :
    Manager.monitorFire m name ee = m ∨
    ∃ t : Tunnel, findT m.tunnels name = some t ∧
      Manager.monitorFire m name ee =
        ⟨insertT m.tunnels name (Tunnel.monitorStep t ee)⟩ := by
  rcases hf : findT m.tunnels name with _ | t
  · simp [Manager.monitorFire, hf]
  · exact Or.inr ⟨t, rfl, by simp [Manager.monitorFire, hf]⟩

theorem registryInv_insert (m : Manager) (name : String) (t1 : Tunnel)
    (h : RegistryInv m) (h1 : GoodStatus t1.status) :
    RegistryInv (⟨insertT m.tunnels name t1⟩ : Manager) := by
  intro n t hft
  simp only [findT_insertT] at hft
  by_cases hn : n = name
  · rw [if_pos hn] at hft
    cases hft
    exact h1
  · rw [if_neg hn] at hft
    exact h n t hft

theorem registryInv_start (m : Manager) (name : String)
    (gc : String → Option Config) (sp : Except String Proc) (now : Int)
    (h : RegistryInv m) : RegistryInv (Manager.start m name gc sp now).1 := by
  rcases start_cases m name gc sp now with heq | ⟨t1, ht1, heq⟩
  · rw [heq]; exact h
  · rw [heq]
    exact registryInv_insert m name t1 h (Or.inl ht1)

theorem registryInv_stop (m : Manager) (name : String) (ke : Option String)
    (h : RegistryInv m) : RegistryInv (Manager.stop m name ke).1 := by
  rcases stop_cases m name ke with heq | heq
  · rw [heq]; exact h
  · rw [heq]
    intro n t hft
    simp only [findT_eraseT] at hft
    by_cases hn : n = name
    · rw [if_pos hn] at hft; cases hft
    · rw [if_neg hn] at hft
      exact h n t hft

theorem registryInv_healthCheck (m : Manager) (name : String) (now : Int)
    (h : RegistryInv m) : RegistryInv (Manager.healthCheck m name now).1 := by
  rcases healthCheck_cases m name now with heq | ⟨t, t1, hf, ht1, heq⟩
  · rw [heq]; exact h
  · rw [heq]
    refine registryInv_insert m name t1 h ?_
    rcases ht1 with h1 | h1
    · exact Or.inr (Or.inl h1)
    · rw [h1]; exact h name t hf

theorem registryInv_monitorFire (m : Manager) (name : String)
    (ee : Option String) (h : RegistryInv m) :
    RegistryInv (Manager.monitorFire m name ee) := by
  rcases monitorFire_cases m name ee with heq | ⟨t, hf, heq⟩
  · rw [heq]; exact h
  · rw [heq]
    refine registryInv_insert m name _ h ?_
    rcases monitorStep_status t ee with h1 | h1 | h1
    · exact Or.inr (Or.inl h1)
    · exact Or.inr (Or.inr h1)
    · rw [h1]; exact h name t hf

theorem registryInv_reach (m : Manager) (h : Reach m) : RegistryInv m := by
  induction h with
  | init => intro n t hft; simp [Manager.new, findT] at hft
  | start m name gc sp now _ ih => exact registryInv_start m name gc sp now ih
  | stop m name ke _ ih => exact registryInv_stop m name ke ih
  | restart m name ke gc sp now _ ih =>
      exact registryInv_start _ name gc sp now (registryInv_stop m name ke ih)
  | health m name now _ ih => exact registryInv_healthCheck m name now ih
  | monitorFire m name ee _ ih => exact registryInv_monitorFire m name ee ih

theorem start_alreadyActive_char (m : Manager) (name : String)
    (gc : String → Option Config) (sp : Except String Proc) (now : Int) :
    ((∃ st, (Manager.start m name gc sp now).2 =
        some (.alreadyActive name st)) ↔
      ∃ t, findT m.tunnels name = some t ∧
        (t.status = .running ∨ t.status = .starting)) ∧
    ((∃ st, (Manager.start m name gc sp now).2 =
        some (.alreadyActive name st)) →
      (Manager.start m name gc sp now).1 = m) := by
  rcases hf : findT m.tunnels name with _ | t
  · rcases hg : gc name with _ | cfg
    · simp [Manager.start, hf, hg]
    · rcases sp with msg | p <;> simp [Manager.start, Tunnel.start, hf, hg]
  · by_cases ht : t.status = .running ∨ t.status = .starting
    · constructor
      · constructor
        · intro _; exact ⟨t, rfl, ht⟩
        · intro _; exact ⟨t.status, by simp [Manager.start, hf, ht]⟩
      · intro _; simp [Manager.start, hf, ht]
    · have hnone : ∀ t', some t = some t' →
          ¬(t'.status = .running ∨ t'.status = .starting) := by
        intro t' h1
        cases h1
        exact ht
      rcases hg : gc name with _ | cfg
      · simp only [Manager.start, hf, ht, hg]
        constructor
        · constructor
          · intro ⟨st, h1⟩; simp at h1
          · intro ⟨t', h1, h2⟩; exact absurd h2 (hnone t' h1)
        · intro _; simp
      · rcases sp with msg | p
        · simp only [Manager.start, Tunnel.start, hf, ht, hg]
          constructor
          · constructor
            · intro ⟨st, h1⟩; simp at h1
            · intro ⟨t', h1, h2⟩; exact absurd h2 (hnone t' h1)
          · intro _; simp
        · simp only [Manager.start, Tunnel.start, hf, ht, hg]
          constructor
          · constructor
            · intro ⟨st, h1⟩; simp at h1
            · intro ⟨t', h1, h2⟩; exact absurd h2 (hnone t' h1)
          · intro ⟨st, h1⟩; simp at h1

theorem start_success_entry (m : Manager) (name : String)
    (gc : String → Option Config) (p : Proc) (now : Int)
    (hok : (Manager.start m name gc (.ok p) now).2 = none) :
    ∃ cfg, gc name = some cfg ∧
      (Manager.start m name gc (.ok p) now).1 =
        ⟨insertT m.tunnels name
          { id := name, config := cfg, process := some p, status := .running,
            startTime := now, lastHealthCheck := 0, lastError := none,
            cancelled := false }⟩ := by
  rcases hf : findT m.tunnels name with _ | t
  · rcases hg : gc name with _ | cfg
    · simp [Manager.start, hf, hg] at hok
    · exact ⟨cfg, rfl, by simp [Manager.start, Tunnel.start, hf, hg]⟩
  · by_cases ht : t.status = .running ∨ t.status = .starting
    · simp [Manager.start, hf, ht] at hok
    · rcases hg : gc name with _ | cfg
      · simp [Manager.start, hf, ht, hg] at hok
      · exact ⟨cfg, rfl, by simp [Manager.start, Tunnel.start, hf, ht, hg]⟩

/-- Concrete configuration used to instantiate theorems at concrete states. -/
def cfgW : Config :=
  { tunnelName := "t1",
    cloudServer :=
      { ip := "203.0.113.1", port := 22, user := "ubuntu",
        homeDir := "/home/ubuntu" },
    localServer := { user := "pi", reversePort := 2222, socksPort := 1080 },
    ssh :=
      { privateKeyPath := "/k", nattedKeyPath := "/n", compression := true,
        ciphers := "aes128-ctr" },
    performance :=
      { keepAliveInterval := 30, keepAliveCountMax := 3, connectTimeout := 10 } }

/-- A config provider oracle resolving every name to `cfgW`. -/
def gcW : String → Option Config := fun _ => some cfgW

/-- A successful spawn outcome with pid 42. -/
def spW : Except String Proc := .ok ⟨42, false⟩

/-- The registry after one successful `Start("t1")` at time 5. -/
def mW1 : Manager := (Manager.start Manager.new "t1" gcW spW 5).1

/-- The record `Start` registers under `"t1"` inside `mW1`. -/
def tW1 : Tunnel :=
  { id := "t1", config := cfgW, process := some ⟨42, false⟩, status := .running,
    startTime := 5, lastHealthCheck := 0, lastError := none, cancelled := false }

/-- `mW1` after the monitor task observes an unexpected process exit. -/
def mW2 : Manager := Manager.monitorFire mW1 "t1" (some "boom")

/-- A record whose configuration carries a negative SOCKS port. -/
def tW3 : Tunnel :=
  { id := "x",
    config :=
      { tunnelName := "x",
        cloudServer :=
          { ip := "203.0.113.1", port := 22, user := "ubuntu",
            homeDir := "/home/ubuntu" },
        localServer := { user := "pi", reversePort := 2222, socksPort := -1 },
        ssh :=
          { privateKeyPath := "/k", nattedKeyPath := "/n", compression := true,
            ciphers := "aes128-ctr" },
        performance :=
          { keepAliveInterval := 30, keepAliveCountMax := 3,
            connectTimeout := 10 } },
    process := none, status := .stopped, startTime := 0, lastHealthCheck := 0,
    lastError := none, cancelled := false }

/-- C3, counterexample: the claim reads the SOCKS clause as "`-D` appears
exactly when `socksPort` is nonzero", but `buildSSHArgs` guards it with
`SOCKSPort > 0` (a signed Go `int` with no validation floor), so a
configuration with `socksPort = -1` is nonzero yet produces no `-D` flag. -/
theorem C3_counterexample :
    tW3.config.localServer.socksPort ≠ 0 ∧
    "-D" ∉ Tunnel.buildSSHArgs tW3 := by decide

/-- C3, amended: `buildSSHArgs` is a pure function of the configuration that
yields exactly the fixed-order list `-N -T`, the six `-o` keepalive /
host-key / forward-failure / timeout options, `-o Compression=yes` exactly
when compression is enabled, `-o Ciphers=<ciphers>` exactly when `ciphers`
is non-empty, `-i <privateKeyPath>`, `-p <cloudServer.port>`,
`-R <reversePort>:localhost:22`, `-D <socksPort>` exactly when `socksPort`
is positive (not merely nonzero), and finally `<user>@<host>`. -/
theorem C3_buildSSHArgs_amended (t : Tunnel) :
    Tunnel.buildSSHArgs t =
      ["-N", "-T",
       "-o", "ServerAliveInterval=" ++
         toString t.config.performance.keepAliveInterval,
       "-o", "ServerAliveCountMax=" ++
         toString t.config.performance.keepAliveCountMax,
       "-o", "StrictHostKeyChecking=no",
       "-o", "UserKnownHostsFile=/dev/null",
       "-o", "ExitOnForwardFailure=yes",
       "-o", "ConnectTimeout=" ++ toString t.config.performance.connectTimeout]
      ++ (if t.config.ssh.compression then ["-o", "Compression=yes"] else [])
      ++ (if t.config.ssh.ciphers ≠ "" then
            ["-o", "Ciphers=" ++ t.config.ssh.ciphers] else [])
      ++ ["-i", t.config.ssh.privateKeyPath,
          "-p", toString t.config.cloudServer.port,
          "-R", toString t.config.localServer.reversePort ++ ":localhost:22"]
      ++ (if t.config.localServer.socksPort > 0 then
            ["-D", toString t.config.localServer.socksPort] else [])
      ++ [t.config.cloudServer.user ++ "@" ++ t.config.cloudServer.ip] := by
  by_cases hcomp : t.config.ssh.compression = true <;>
  by_cases hciph : t.config.ssh.ciphers = "" <;>
  by_cases hsock : 0 < t.config.localServer.socksPort <;>
    simp [Tunnel.buildSSHArgs, hcomp, hciph, hsock]

/-- C2, counterexample: the claim says any process exit observed without a
requested cancellation yields status `Error` with a recorded cause, but on a
clean exit (`Process.Wait()` returning a nil error) the monitor body takes
neither branch and the deferred cleanup demotes the `Running` record to
`Stopped` with no recorded cause. -/
theorem C2_counterexample :
    tW1.cancelled = false ∧ tW1.status = .running ∧
    (Tunnel.monitorStep tW1 none).status = .stopped ∧
    (Tunnel.monitorStep tW1 none).status ≠ .error ∧
    (Tunnel.monitorStep tW1 none).lastError = none := by decide

/-- C2, amended: when the monitor observes a process exit reported as a
failure (non-nil wait error) and no cancellation was requested, it sets the
record to `Error` with the exit cause recorded (and the code does so
unconditionally, which in particular covers every still-present,
non-terminal record); when it observes a clean exit without cancellation it
instead demotes a `Running` record to `Stopped` recording no cause; and when
cancellation was requested first, the record — already set `Stopped` by the
explicit Stop path — is left unchanged. -/
theorem C2_monitor_amended (t : Tunnel) (ee : Option String) :
    (∀ msg, ee = some msg → t.cancelled = false →
      (Tunnel.monitorStep t ee).status = .error ∧
      (Tunnel.monitorStep t ee).lastError =
        some ("SSH process exited unexpectedly: " ++ msg)) ∧
    (ee = none → t.cancelled = false → t.status = .running →
      Tunnel.monitorStep t ee = {t with status := .stopped}) ∧
    (t.cancelled = true → t.status = .stopped →
      Tunnel.monitorStep t ee = t) := by
  refine ⟨?_, ?_, ?_⟩
  · intro msg hmsg hc
    subst hmsg
    simp [Tunnel.monitorStep, hc]
  · intro hmsg hc hs
    subst hmsg
    simp [Tunnel.monitorStep, hc, hs]
  · intro hc hs
    rcases ee with _ | msg <;> simp [Tunnel.monitorStep, hc, hs] <;>
      cases t <;> simp_all

/-- C2, witness for the amended theorem at a concrete running record and a
concrete failed wait result. -/
theorem C2_monitor_amended_witness :
    (Tunnel.monitorStep tW1 (some "boom")).status = .error ∧
    (Tunnel.monitorStep tW1 (some "boom")).lastError =
      some ("SSH process exited unexpectedly: " ++ "boom") :=
  (C2_monitor_amended tW1 (some "boom")).1 "boom" rfl rfl

/-- C4: `Stop` fails with `NotFound` when no entry exists, fails with
`AlreadyStopped` when the entry is `Stopped` or `Stopping`, and otherwise
succeeds and removes the entry from the registry; the outcome is the same
for every kill-signal result, so a failed kill still yields success,
the `Stopped` transition and the removal. -/
theorem C4_stop_spec (m : Manager) (name : String) (killErr : Option String) :
    (findT m.tunnels name = none →
      Manager.stop m name killErr = (m, some (.notFound name))) ∧
    (∀ t, findT m.tunnels name = some t →
      (t.status = .stopped ∨ t.status = .stopping) →
      Manager.stop m name killErr = (m, some (.alreadyStopped name t.status))) ∧
    (∀ t, findT m.tunnels name = some t →
      ¬(t.status = .stopped ∨ t.status = .stopping) →
      Manager.stop m name killErr = (⟨eraseT m.tunnels name⟩, none) ∧
      findT (Manager.stop m name killErr).1.tunnels name = none) ∧
    (∀ killErr2, Manager.stop m name killErr2 = Manager.stop m name killErr) := by
  refine ⟨?_, ?_, ?_, ?_⟩
  · intro hf; simp [Manager.stop, hf]
  · intro t hf ht; simp [Manager.stop, hf, ht]
  · intro t hf ht
    refine ⟨by simp [Manager.stop, hf, ht], ?_⟩
    simp [Manager.stop, hf, ht, findT_eraseT]
  · intro killErr2
    rcases hf : findT m.tunnels name with _ | t
    · simp [Manager.stop, hf]
    · by_cases ht : t.status = .stopped ∨ t.status = .stopping <;>
        simp [Manager.stop, hf, ht]

/-- C4, witness: stopping the concrete running tunnel of `mW1` with a failing
kill signal still succeeds and removes the entry. -/
theorem C4_stop_spec_witness :
    Manager.stop mW1 "t1" (some "kill failed") =
      (⟨eraseT mW1.tunnels "t1"⟩, none) ∧
    findT (Manager.stop mW1 "t1" (some "kill failed")).1.tunnels "t1" = none :=
  (C4_stop_spec mW1 "t1" (some "kill failed")).2.2.1 tW1 (by decide) (by decide)

/-- C5: when the spawn fails, `Start` returns an error synchronously and the
registry is exactly the one it started from — no entry is created, removed or
replaced for any name. -/
theorem C5_start_spawn_atomic (m : Manager) (name : String)
    (gc : String → Option Config) (msg : String) (now : Int) :
    (Manager.start m name gc (.error msg) now).1 = m ∧
    ∃ e, (Manager.start m name gc (.error msg) now).2 = some e := by
  rcases hf : findT m.tunnels name with _ | t
  · rcases hg : gc name with _ | cfg
    · simp [Manager.start, hf, hg]
    · simp [Manager.start, Tunnel.start, hf, hg]
  · by_cases ht : t.status = .running ∨ t.status = .starting
    · simp [Manager.start, hf, ht]
    · rcases hg : gc name with _ | cfg
      · simp [Manager.start, hf, ht, hg]
      · simp [Manager.start, Tunnel.start, hf, ht, hg]

/-- C1: on every reachable registry state, `Start(name)` fails with the
`AlreadyActive`-class error exactly when an entry for `name` already exists
with status `Starting`, `Running` or `Stopping` (the code tests only
`Running`/`Starting`, but on reachable states a persisted `Stopping` entry
is impossible, so the two conditions coincide), and in that failure case the
registry mapping is unchanged — no entry added, removed or replaced. -/
theorem C1_start_alreadyActive_iff (m : Manager) (name : String)
    (gc : String → Option Config) (sp : Except String Proc) (now : Int)
    (hreach : Reach m) :
    ((∃ st, (Manager.start m name gc sp now).2 =
        some (.alreadyActive name st)) ↔
      ∃ t, findT m.tunnels name = some t ∧
        (t.status = .starting ∨ t.status = .running ∨
         t.status = .stopping)) ∧
    ((∃ st, (Manager.start m name gc sp now).2 =
        some (.alreadyActive name st)) →
      (Manager.start m name gc sp now).1 = m) := by
  obtain ⟨hiff, hunch⟩ := start_alreadyActive_char m name gc sp now
  refine ⟨?_, hunch⟩
  constructor
  · intro h
    obtain ⟨t, hf, ht⟩ := hiff.mp h
    rcases ht with h1 | h1
    · exact ⟨t, hf, Or.inr (Or.inl h1)⟩
    · exact ⟨t, hf, Or.inl h1⟩
  · intro ⟨t, hf, ht⟩
    refine hiff.mpr ⟨t, hf, ?_⟩
    have hgood := registryInv_reach m hreach name t hf
    rcases ht with h1 | h1 | h1
    · rw [h1] at hgood
      rcases hgood with h2 | h2 | h2 <;> exact Status.noConfusion h2
    · exact Or.inl h1
    · rw [h1] at hgood
      rcases hgood with h2 | h2 | h2 <;> exact Status.noConfusion h2

/-- C1, witness: in the reachable state holding the running tunnel `"t1"`,
starting `"t1"` again fails `AlreadyActive` and leaves the registry as is. -/
theorem C1_start_alreadyActive_iff_witness :
    (Manager.start mW1 "t1" gcW spW 6).2 =
      some (.alreadyActive "t1" .running) ∧
    (Manager.start mW1 "t1" gcW spW 6).1 = mW1 := by
  have h := C1_start_alreadyActive_iff mW1 "t1" gcW spW 6
    (Reach.start Manager.new "t1" gcW spW 5 Reach.init)
  have hex := h.1.mpr ⟨tW1, by decide, Or.inr (Or.inl rfl)⟩
  exact ⟨by decide, h.2 hex⟩

/-- C6: whenever `Start(name)` with a resolvable configuration and a
successful spawn returns success, the registry holds `name` with status
`Running`, `startTime = now` (non-zero for any positive clock) and a cleared
`lastError`, and a subsequent `GetStatus(name)` reports status `Running`,
a non-zero `startTime` and a positive pid (given the OS hands out positive
pids). -/
theorem C6_start_success_status (m : Manager) (name : String)
    (gc : String → Option Config) (p : Proc) (now now2 : Int)
    (hpid : 0 < p.pid) (hnow : 0 < now)
    (hok : (Manager.start m name gc (.ok p) now).2 = none) :
    ∃ t1, findT (Manager.start m name gc (.ok p) now).1.tunnels name =
        some t1 ∧
      t1.status = .running ∧ t1.startTime = now ∧ t1.startTime ≠ 0 ∧
      t1.lastError = none ∧
      (Manager.getStatus (Manager.start m name gc (.ok p) now).1 name
        now2).status = .running ∧
      (Manager.getStatus (Manager.start m name gc (.ok p) now).1 name
        now2).startTime ≠ 0 ∧
      0 < (Manager.getStatus (Manager.start m name gc (.ok p) now).1 name
        now2).pid := by
  obtain ⟨cfg, hg, hstate⟩ := start_success_entry m name gc p now hok
  have hfind : findT (Manager.start m name gc (.ok p) now).1.tunnels name =
      some { id := name, config := cfg, process := some p, status := .running,
             startTime := now, lastHealthCheck := 0, lastError := none,
             cancelled := false } := by
    rw [hstate]
    show findT (insertT m.tunnels name _) name = _
    rw [findT_insertT]
    simp
  refine ⟨_, hfind, rfl, rfl, ?_, rfl, ?_, ?_, ?_⟩
  · show now ≠ 0
    omega
  · simp [Manager.getStatus, hfind]
  · simp [Manager.getStatus, hfind]
    omega
  · simp [Manager.getStatus, hfind]
    exact hpid

/-- C6, witness: a concrete successful start at time 5 with pid 42, observed
by `GetStatus` at time 9. -/
theorem C6_start_success_status_witness :
    (Manager.getStatus (Manager.start Manager.new "t1" gcW
      (.ok ⟨42, false⟩) 5).1 "t1" 9).status = .running ∧
    (Manager.getStatus (Manager.start Manager.new "t1" gcW
      (.ok ⟨42, false⟩) 5).1 "t1" 9).startTime ≠ 0 ∧
    0 < (Manager.getStatus (Manager.start Manager.new "t1" gcW
      (.ok ⟨42, false⟩) 5).1 "t1" 9).pid := by
  have h := C6_start_success_status Manager.new "t1" gcW ⟨42, false⟩ 5 9
    (by decide) (by decide) (by decide)
  obtain ⟨t1, -, -, -, -, -, h6, h7, h8⟩ := h
  exact ⟨h6, h7, h8⟩

/-- C7: `HealthCheck` fails `NotFound` for unknown names, fails `NotRunning`
when the entry is not `Running`, moves the entry to `Error` with the
recorded cause and returns that failure when the process handle is absent or
the process has exited, and otherwise stamps `lastHealthCheck` and succeeds;
it adds and removes no registry entry (and, taking no spawn outcome at all,
can start nothing). -/
theorem C7_healthCheck_spec (m : Manager) (name : String) (now : Int) :
    (findT m.tunnels name = none →
      Manager.healthCheck m name now = (m, some (.notFound name))) ∧
    (∀ t, findT m.tunnels name = some t → t.status ≠ .running →
      Manager.healthCheck m name now = (m, some (.notRunning name))) ∧
    (∀ t, findT m.tunnels name = some t → t.status = .running →
      t.process = none →
      (Manager.healthCheck m name now).2 = some (.processNotFound name) ∧
      findT (Manager.healthCheck m name now).1.tunnels name =
        some {t with status := .error, lastError := some "tunnel process not found"}) ∧
    (∀ t p, findT m.tunnels name = some t → t.status = .running →
      t.process = some p → p.exited = true →
      (Manager.healthCheck m name now).2 = some (.processExited name) ∧
      findT (Manager.healthCheck m name now).1.tunnels name =
        some {t with status := .error, lastError := some "tunnel process has exited"}) ∧
    (∀ t p, findT m.tunnels name = some t → t.status = .running →
      t.process = some p → p.exited = false →
      Manager.healthCheck m name now =
        (⟨insertT m.tunnels name {t with lastHealthCheck := now}⟩, none)) ∧
    (∀ n, (findT (Manager.healthCheck m name now).1.tunnels n).isSome =
      (findT m.tunnels n).isSome) := by
  refine ⟨?_, ?_, ?_, ?_, ?_, ?_⟩
  · intro hf; simp [Manager.healthCheck, hf]
  · intro t hf ht; simp [Manager.healthCheck, hf, ht]
  · intro t hf ht hp
    refine ⟨by simp [Manager.healthCheck, hf, ht, hp], ?_⟩
    simp [Manager.healthCheck, hf, ht, hp, findT_insertT]
  · intro t p hf ht hp hex
    refine ⟨by simp [Manager.healthCheck, hf, ht, hp, hex], ?_⟩
    simp [Manager.healthCheck, hf, ht, hp, hex, findT_insertT]
  · intro t p hf ht hp hex
    simp [Manager.healthCheck, hf, ht, hp, hex]
  · intro n
    rcases healthCheck_cases m name now with heq | ⟨t, t1, hf, -, heq⟩
    · rw [heq]
    · rw [heq]
      show (findT (insertT m.tunnels name t1) n).isSome = _
      rw [findT_insertT]
      by_cases hn : n = name
      · subst hn; simp [hf]
      · simp [hn]

/-- C7, witness: a healthy check on the concrete running tunnel stamps its
`lastHealthCheck` and succeeds. -/
theorem C7_healthCheck_spec_witness :
    Manager.healthCheck mW1 "t1" 7 =
      (⟨insertT mW1.tunnels "t1" {tW1 with lastHealthCheck := 7}⟩, none) :=
  (C7_healthCheck_spec mW1 "t1" 7).2.2.2.2.1 tW1 ⟨42, false⟩
    (by decide) (by decide) (by decide) (by decide)

/-- C8: `Restart` is exactly `Stop` with its error discarded followed (after
the settle delay) by `Start`, and it returns `Start`'s result; when the
restart succeeds, the registered record carries the newly spawned process
handle, whose pid differs from the pre-restart pid whenever the OS supplies
a fresh one. -/
theorem C8_restart_spec (m : Manager) (name : String) (ke : Option String)
    (gc : String → Option Config) (p : Proc) (now : Int)
    (oldT : Tunnel) (oldP : Proc)
    (hold : findT m.tunnels name = some oldT)
    (holdP : oldT.process = some oldP)
    (hfresh : p.pid ≠ oldP.pid) :
    Manager.restart m name ke gc (.ok p) now =
      Manager.start (Manager.stop m name ke).1 name gc (.ok p) now ∧
    ((Manager.restart m name ke gc (.ok p) now).2 = none →
      ∃ t1, findT (Manager.restart m name ke gc (.ok p) now).1.tunnels name =
          some t1 ∧
        t1.process = some p ∧ p.pid ≠ oldP.pid) := by
  refine ⟨rfl, ?_⟩
  intro hok
  obtain ⟨cfg, hg, hstate⟩ :=
    start_success_entry (Manager.stop m name ke).1 name gc p now hok
  refine ⟨{ id := name, config := cfg, process := some p, status := .running,
            startTime := now, lastHealthCheck := 0, lastError := none,
            cancelled := false }, ?_, rfl, hfresh⟩
  show findT (Manager.start (Manager.stop m name ke).1 name gc
    (.ok p) now).1.tunnels name = _
  rw [hstate]
  show findT (insertT (Manager.stop m name ke).1.tunnels name _) name = _
  rw [findT_insertT]
  simp

/-- C8, witness: restarting the concrete running tunnel (old pid 42) with a
failing kill signal and a fresh spawn of pid 43. -/
theorem C8_restart_spec_witness :
    Manager.restart mW1 "t1" (some "kill failed") gcW (.ok ⟨43, false⟩) 8 =
      Manager.start (Manager.stop mW1 "t1" (some "kill failed")).1 "t1" gcW
        (.ok ⟨43, false⟩) 8 ∧
    findT (Manager.restart mW1 "t1" (some "kill failed") gcW
        (.ok ⟨43, false⟩) 8).1.tunnels "t1" =
      some { id := "t1", config := cfgW, process := some ⟨43, false⟩,
             status := .running, startTime := 8, lastHealthCheck := 0,
             lastError := none, cancelled := false } ∧
    (43 : Int) ≠ 42 := by
  have h := C8_restart_spec mW1 "t1" (some "kill failed") gcW ⟨43, false⟩ 8
    tW1 ⟨42, false⟩ (by decide) (by decide) (by decide)
  exact ⟨h.1, by decide, by decide⟩

/-- C9, counterexample: in the reachable state where the monitor task has
recorded an unexpected exit (status `Error`), `GetStatus` still reports
`uptime = now − startTime` (here 10 − 5 = 5 ≠ 0), although the reported
status is not `Running` — the code computes `time.Since(StartTime)`
unconditionally. -/
theorem C9_counterexample :
    Reach mW2 ∧
    (Manager.getStatus mW2 "t1" 10).status = .error ∧
    (Manager.getStatus mW2 "t1" 10).uptime =
      10 - (Manager.getStatus mW2 "t1" 10).startTime ∧
    (Manager.getStatus mW2 "t1" 10).uptime = 5 ∧
    (Manager.getStatus mW2 "t1" 10).uptime ≠ 0 :=
  ⟨Reach.monitorFire mW1 "t1" (some "boom")
     (Reach.start Manager.new "t1" gcW spW 5 Reach.init),
   by decide, by decide, by decide, by decide⟩

/-- C9, amended: in every projection `GetStatus` returns for a
registry-present entry, uptime equals now − startTime regardless of the
reported status; the zero uptime appears exactly in the synthetic projection
for absent names. -/
theorem C9_uptime_amended (m : Manager) (name : String) (now : Int) :
    (∀ t, findT m.tunnels name = some t →
      (Manager.getStatus m name now).uptime = now - t.startTime) ∧
    (findT m.tunnels name = none →
      (Manager.getStatus m name now).uptime = 0) := by
  constructor
  · intro t hf; simp [Manager.getStatus, hf]
  · intro hf; simp [Manager.getStatus, hf]

/-- C9, witness for the amended theorem at the concrete errored entry. -/
theorem C9_uptime_amended_witness :
    (Manager.getStatus mW2 "t1" 10).uptime =
      10 - (Tunnel.monitorStep tW1 (some "boom")).startTime :=
  (C9_uptime_amended mW2 "t1" 10).1 (Tunnel.monitorStep tW1 (some "boom"))
    (by decide)

/-- C10: in every reachable state, each projection `GetStatus` or `List`
returns for a registry-present name reports status `Running`, `Error` or
`Stopped`; the transient `Starting`/`Stopping` statuses are never
observable. -/
theorem C10_no_transient_observable (m : Manager) (now : Int)
    (hreach : Reach m) :
    (∀ name t, findT m.tunnels name = some t →
      (Manager.getStatus m name now).status = .running ∨
      (Manager.getStatus m name now).status = .error ∨
      (Manager.getStatus m name now).status = .stopped) ∧
    (∀ ts, ts ∈ Manager.list m now →
      ts.status = .running ∨ ts.status = .error ∨ ts.status = .stopped) := by
  have hinv := registryInv_reach m hreach
  constructor
  · intro name t hf
    have hg := hinv name t hf
    simpa [Manager.getStatus, hf, GoodStatus] using hg
  · intro ts hts
    obtain ⟨q, hq, rfl⟩ := List.mem_map.mp hts
    rcases hf : findT m.tunnels q.1 with _ | t
    · simp [Manager.getStatus, hf]
    · have hg := hinv q.1 t hf
      simpa [Manager.getStatus, hf, GoodStatus] using hg

/-- C10, witness: the projection of the registered tunnel in the concrete
reachable state reports one of the observable statuses. -/
theorem C10_no_transient_observable_witness :
    (Manager.getStatus mW1 "t1" 10).status = .running ∨
    (Manager.getStatus mW1 "t1" 10).status = .error ∨
    (Manager.getStatus mW1 "t1" 10).status = .stopped :=
  (C10_no_transient_observable mW1 10
    (Reach.start Manager.new "t1" gcW spW 5 Reach.init)).1 "t1" tW1 (by decide)

end SSHTunnel
